import Mathlib

/-!
# Wallet adapter (`js/walletProvider.js`)

A shallow embedding of the wallet adapter module and the properties of its
exported functions.

Modelling conventions.

* JavaScript values are the data fragment `JSVal` below.  Numbers are
  restricted to integral values and `NaN`; objects are plain records of data
  properties with an identity.
* The module-level variables `provider`, `userAddress` and `walletType` form
  the `State`; every exported function is a state transformer.
* Each exported `async` function is run to completion as one atomic step (the
  module is used from one logical thread of control).  The outcome of every
  call into the host SDK or a provider during that step is given by an `Env`.
  A promise that rejects and a call that throws are both `Except.error` with
  the thrown value; a readiness call that times out is a rejection.
* The calls a step makes on its collaborators are recorded, in order, in a
  trace of `Event`s.  `console.log` / `console.error` output is not recorded,
  but the evaluation of their arguments is modelled where it can throw.
* `provider.on(name, handler)` either returns, and the handler is then
  registered, or throws (a provider without an `on` method throws a
  `TypeError`); a call that throws registers nothing.
-/

namespace WalletProvider

/-! ## JavaScript values -/

/-- The fragment of JavaScript values the module can observe. -/
inductive JSVal where
  | undefined
  | null
  | bool (b : Bool)
  | num (n : Int)
  | nan
  | str (s : String)
  | arr (items : List JSVal)
  | obj (id : Nat) (props : List (String × JSVal))
  | error (message : String)
  | typeError

namespace JSVal

/-- Truthiness, as tested by `if (v)`, `!v` and `v && w`. -/
def truthy : JSVal → Bool
  | undefined => false
  | null => false
  | bool b => b
  | num n => n != 0
  | nan => false
  | str s => s != ""
  | arr _ => true
  | obj _ _ => true
  | error _ => true
  | typeError => true

/-- Lookup of an own data property in a property list. -/
def lookupProp (key : String) : List (String × JSVal) → JSVal
  | [] => undefined
  | (k, v) :: rest => if k = key then v else lookupProp key rest

/-- The expression `v[0]`.  Reading a property of `null` or `undefined`
throws a `TypeError`; an array yields its first element, a string its first
character, an object its property `"0"`, and anything else `undefined`.
(For a first character outside the Basic Multilingual Plane JavaScript
yields its leading surrogate; in both cases a non-empty string.) -/
def index0 : JSVal → Except JSVal JSVal
  | undefined => .error typeError
  | null => .error typeError
  | str s =>
    match s.data with
    | [] => .ok undefined
    | c :: _ => .ok (str (String.mk [c]))
  | arr [] => .ok undefined
  | arr (x :: _) => .ok x
  | obj _ props => .ok (lookupProp "0" props)
  | _ => .ok undefined

/-- The expression `accounts && accounts[0]`. -/
def andIndex0 (accounts : JSVal) : Except JSVal JSVal :=
  if accounts.truthy then accounts.index0 else .ok accounts

/-- Evaluation of `err.message` as an argument of `console.log`: it throws a
`TypeError` when `err` is `null` or `undefined`; otherwise the value read is
only printed. -/
def evalMessage : JSVal → Except JSVal Unit
  | undefined => .error typeError
  | null => .error typeError
  | _ => .ok ()

end JSVal

open JSVal

/-! ## Collaborators, events and module state -/

/-- The argument object of `provider.request`: `method` and, when the key is
present, `params`. -/
structure RequestArgs where
  method : String
  params : Option (List JSVal)

/-- The two closures `connectWallet` passes to `provider.on`. -/
inductive Handler where
  | accountsChanged
  | chainChanged
  deriving DecidableEq

/-- Calls made on the collaborators.  `on` is a call of `target.on` that
returned, so that the handler is registered; `onThrew` is one that threw. -/
inductive Event where
  | sdkReady (timeout : Nat)
  | sdkGetEthereumProvider
  | request (target : JSVal) (args : RequestArgs)
  | on (target : JSVal) (name : String) (handler : Handler)
  | onThrew (target : JSVal) (name : String)
  | sdkContext
  | sdkOpenUrl (url : JSVal)
  | reload

/-- How the collaborators answer during one step. -/
structure Env where
  /-- Outcome of `FarcasterSDK.actions.ready({ timeout: 1000 })`. -/
  ready : Except JSVal Unit
  /-- Outcome of `FarcasterSDK.wallet.getEthereumProvider()`. -/
  getEthereumProvider : Except JSVal JSVal
  /-- Outcome of `target.request(args)`. -/
  request : JSVal → RequestArgs → Except JSVal JSVal
  /-- Outcome of `target.on(name, handler)`. -/
  subscribe : JSVal → String → Except JSVal Unit
  /-- Value of `window.ethereum` (`undefined` when no extension is present). -/
  ethereum : JSVal
  /-- Outcome of awaiting `FarcasterSDK.context`. -/
  context : Except JSVal JSVal
  /-- Outcome of `FarcasterSDK.actions.openUrl(url)`. -/
  openUrl : JSVal → Except JSVal Unit

/-- The module-level variables. -/
structure State where
  provider : JSVal
  userAddress : JSVal
  walletType : String

/-- The values the module-level variables are declared with. -/
def State.initial : State :=
  { provider := .null, userAddress := .null, walletType := "none" }

/-- Result of running one exported function: the value the call resolves to
(`ok`) or rejects with (`error`), the module state afterwards and the calls
made. -/
structure Run (α : Type) where
  result : Except JSVal α
  state : State
  trace : List Event

/-- The record `initializeWallet` resolves to. -/
structure WalletInfo where
  type : JSVal
  address : JSVal
  connected : JSVal

/-- The request `{ method: 'eth_requestAccounts' }`. -/
def requestAccounts : RequestArgs :=
  { method := "eth_requestAccounts", params := none }

/-! ## `initializeWallet` -/

/-- The body of the `try` block of `initializeWallet`.  `ok (some r)` is the
`return r` inside the block, `ok none` is reaching the end of the block and
`error e` is a throw inside it. -/
def farcasterBody (s : State) (env : Env) : Run (Option WalletInfo) :=
  match env.ready with
  | .error e => ⟨.error e, s, [.sdkReady 1000]⟩
  | .ok _ =>
    match env.getEthereumProvider with
    | .error e => ⟨.error e, s, [.sdkReady 1000, .sdkGetEthereumProvider]⟩
    | .ok p =>
      let s1 : State := { s with provider := p }
      if s1.provider.truthy then
        let s2 : State := { s1 with walletType := "farcaster" }
        let t : List Event :=
          [.sdkReady 1000, .sdkGetEthereumProvider, .request s2.provider requestAccounts]
        match env.request s2.provider requestAccounts with
        | .error e => ⟨.error e, s2, t⟩
        | .ok accounts =>
          match accounts.andIndex0 with
          | .error e => ⟨.error e, s2, t⟩
          | .ok c =>
            if c.truthy then
              match accounts.index0 with
              | .error e => ⟨.error e, s2, t⟩
              | .ok a =>
                let s3 : State := { s2 with userAddress := a }
                ⟨.ok (some { type := .str "farcaster", address := s3.userAddress,
                             connected := .bool true }), s3, t⟩
            else ⟨.ok none, s2, t⟩
      else ⟨.ok none, s1, [.sdkReady 1000, .sdkGetEthereumProvider]⟩

/-- The `try { ... } catch (err) { console.log(..., err.message) }` statement
of `initializeWallet`: a throw inside the block runs the handler, which
evaluates `err.message`. -/
def tryFarcaster (s : State) (env : Env) : Run (Option WalletInfo) :=
  let r := farcasterBody s env
  match r.result with
  | .ok _ => r
  | .error err =>
    match err.evalMessage with
    | .error e => ⟨.error e, r.state, r.trace⟩
    | .ok _ => ⟨.ok none, r.state, r.trace⟩

/-- The statements of `initializeWallet` after the `try` statement. -/
def checkMetaMask (s : State) (env : Env) : Run WalletInfo :=
  if env.ethereum.truthy then
    ⟨.ok { type := .str "metamask", address := .null, connected := .bool false },
     { s with provider := env.ethereum, walletType := "metamask" }, []⟩
  else
    ⟨.ok { type := .str "none", address := .null, connected := .bool false }, s, []⟩

/-- The function `initializeWallet()`. -/
def initializeWallet (s : State) (env : Env) : Run WalletInfo :=
  let r := tryFarcaster s env
  match r.result with
  | .error e => ⟨.error e, r.state, r.trace⟩
  | .ok (some info) => ⟨.ok info, r.state, r.trace⟩
  | .ok none =>
    let m := checkMetaMask r.state env
    ⟨m.result, m.state, r.trace ++ m.trace⟩

/-! ## `connectWallet` and its handlers -/

/-- The statement `if (!provider) { ... }` at the start of `connectWallet`. -/
def acquireProvider (s : State) (env : Env) : Except JSVal State :=
  if !s.provider.truthy then
    if env.ethereum.truthy then
      .ok { s with provider := env.ethereum, walletType := "metamask" }
    else .error (.error "No wallet available")
  else .ok s

/-- The function `connectWallet()`.  Everything from the account request to
the `return` is inside the `try` block, the two `provider.on` calls
included; the `catch` handler logs the error and rethrows it unchanged;
reaching the end of the function resolves to `undefined`. -/
def connectWallet (s : State) (env : Env) : Run JSVal :=
  match acquireProvider s env with
  | .error e => ⟨.error e, s, []⟩
  | .ok s1 =>
    let t : List Event := [.request s1.provider requestAccounts]
    match env.request s1.provider requestAccounts with
    | .error e => ⟨.error e, s1, t⟩
    | .ok accounts =>
      match accounts.andIndex0 with
      | .error e => ⟨.error e, s1, t⟩
      | .ok c =>
        if c.truthy then
          match accounts.index0 with
          | .error e => ⟨.error e, s1, t⟩
          | .ok a =>
            let s2 : State := { s1 with userAddress := a }
            match env.subscribe s2.provider "accountsChanged" with
            | .error e => ⟨.error e, s2, t ++ [.onThrew s2.provider "accountsChanged"]⟩
            | .ok _ =>
              match env.subscribe s2.provider "chainChanged" with
              | .error e =>
                ⟨.error e, s2,
                 t ++ [.on s2.provider "accountsChanged" .accountsChanged,
                       .onThrew s2.provider "chainChanged"]⟩
              | .ok _ =>
                ⟨.ok s2.userAddress, s2,
                 t ++ [.on s2.provider "accountsChanged" .accountsChanged,
                       .on s2.provider "chainChanged" .chainChanged]⟩
        else ⟨.ok .undefined, s1, t⟩

/-- Running a registered handler on the argument the provider passes to it:
the calls it makes, or the value it throws.
`accountsChanged` is `(accounts) => { if (accounts[0]) reload }` and
`chainChanged` is `() => { reload }`. -/
def Handler.run : Handler → JSVal → Except JSVal (List Event)
  | .accountsChanged, accounts =>
    match accounts.index0 with
    | .error e => .error e
    | .ok a => if a.truthy then .ok [.reload] else .ok []
  | .chainChanged, _ => .ok [.reload]

/-! ## Accessors and forwarding functions -/

/-- The function `getAddress()`. -/
def getAddress (s : State) : JSVal := s.userAddress

/-- The function `getWalletType()`. -/
def getWalletType (s : State) : String := s.walletType

/-- The request `{ method: 'eth_sendTransaction', params: [txParams] }`. -/
def sendTransactionArgs (txParams : JSVal) : RequestArgs :=
  { method := "eth_sendTransaction", params := some [txParams] }

/-- The function `sendTransaction(txParams)`. -/
def sendTransaction (s : State) (env : Env) (txParams : JSVal) : Run JSVal :=
  if !s.provider.truthy then
    ⟨.error (.error "No wallet connected"), s, []⟩
  else
    ⟨env.request s.provider (sendTransactionArgs txParams), s,
     [.request s.provider (sendTransactionArgs txParams)]⟩

/-- The function `getFarcasterContext()`. -/
def getFarcasterContext (s : State) (env : Env) : Run JSVal :=
  if s.walletType = "farcaster" then
    match env.context with
    | .ok v => ⟨.ok v, s, [.sdkContext]⟩
    | .error _ => ⟨.ok .null, s, [.sdkContext]⟩
  else ⟨.ok .null, s, []⟩

/-- The function `openUrl(url)`. -/
def openUrl (s : State) (env : Env) (url : JSVal) : Run JSVal :=
  if s.walletType = "farcaster" then
    match env.openUrl url with
    | .ok _ => ⟨.ok (.bool true), s, [.sdkOpenUrl url]⟩
    | .error _ => ⟨.ok (.bool false), s, [.sdkOpenUrl url]⟩
  else ⟨.ok (.bool false), s, []⟩

/-! ## Sequences of calls -/

/-- The operations a page can perform on the module.  `reload` is the page
reload triggered by a handler: the module is loaded afresh. -/
inductive Call where
  | initializeWallet
  | connectWallet
  | sendTransaction (txParams : JSVal)
  | getFarcasterContext
  | openUrl (url : JSVal)
  | reload

/-- Module state after a call. -/
def Call.next : Call → State → Env → State
  | .initializeWallet, s, env => (WalletProvider.initializeWallet s env).state
  | .connectWallet, s, env => (WalletProvider.connectWallet s env).state
  | .sendTransaction tx, s, env => (WalletProvider.sendTransaction s env tx).state
  | .getFarcasterContext, s, env => (WalletProvider.getFarcasterContext s env).state
  | .openUrl url, s, env => (WalletProvider.openUrl s env url).state
  | .reload, _, _ => State.initial

/-- The environment keeps the two kinds of provider apart: every handle the
host SDK yields satisfies `host`, and `window.ethereum` does not. -/
def Env.distinguishes (host : JSVal → Prop) (env : Env) : Prop :=
  (∀ p, env.getEthereumProvider = .ok p → p.truthy = true → host p) ∧
  (env.ethereum.truthy = true → ¬ host env.ethereum)

/-- Module states reachable from the initial state by calls whose environments
keep host handles and the injected provider apart. -/
inductive Reachable (host : JSVal → Prop) : State → Prop where
  | initial : Reachable host State.initial
  | step (c : Call) (s : State) (env : Env) :
      Reachable host s → env.distinguishes host → Reachable host (c.next s env)

/-- The wallet type names the origin of the stored provider. -/
def Tagged (host : JSVal → Prop) (s : State) : Prop :=
  s.provider.truthy = true →
    (host s.provider ∧ s.walletType = "farcaster") ∨
    (¬ host s.provider ∧ s.walletType = "metamask")

/-- A thrown value on which the property read `err.message` itself throws. -/
def JSVal.nullish : JSVal → Bool
  | .undefined => true
  | .null => true
  | _ => false

/-- Events that are `request` calls. -/
def Event.isRequest : Event → Bool
  | .request _ _ => true
  | _ => false

/-- Events that are `on` registrations. -/
def Event.isOn : Event → Bool
  | .on _ _ _ => true
  | _ => false

/-! ## Sample collaborators -/

/-- A host wallet handle. -/
def hostHandle : JSVal := .obj 1 []

/-- An injected wallet extension object. -/
def injected : JSVal := .obj 2 []

/-- An environment with no host SDK answer and no extension: readiness
rejects with an `Error`, every request rejects. -/
def envNone : Env :=
  { ready := .error (.error "timeout"),
    getEthereumProvider := .error (.error "unavailable"),
    request := fun _ _ => .error (.error "rejected"),
    subscribe := fun _ _ => .ok (),
    ethereum := .undefined,
    context := .error (.error "unavailable"),
    openUrl := fun _ => .error (.error "unavailable") }

/-- An environment in which readiness rejects with an `Error` and an
extension is present; the extension answers every request with `answer`. -/
def envInjected (answer : Except JSVal JSVal) : Env :=
  { envNone with ethereum := injected, request := fun _ _ => answer }

/-- An environment in which the host SDK is ready and yields `hostHandle`,
which answers every request with `answer`; `window.ethereum` is `ethereum`. -/
def envHost (answer : Except JSVal JSVal) (ethereum : JSVal) : Env :=
  { ready := .ok (),
    getEthereumProvider := .ok hostHandle,
    request := fun _ _ => answer,
    subscribe := fun _ _ => .ok (),
    ethereum := ethereum,
    context := .ok (.obj 3 []),
    openUrl := fun _ => .ok () }

/-- An environment with an extension that answers the account request with
the one-entry list of the address `0xDEF`, accepts an `accountsChanged`
subscription and throws on a `chainChanged` subscription. -/
def envChainChangedThrows : Env :=
  { envInjected (.ok (.arr [.str "0xDEF"])) with
    subscribe := fun _ name =>
      if name = "chainChanged" then .error (.error "unsupported event") else .ok () }

/-! ## Properties of the forwarding functions -/

/-- C8: when `walletType` is not `farcaster`, whatever the provider field
holds and whatever the url, `getFarcasterContext()` resolves to `null` and
`openUrl(url)` to `false`, the state is unchanged and the host SDK is not
called; when `walletType` is `farcaster`, a failing host SDK call is mapped
to `null`, respectively `false`; and neither function ever rejects. -/
theorem farcaster_only_functions_return_sentinels (s : State) (env : Env) (url : JSVal) :
    (s.walletType ≠ "farcaster" →
      getFarcasterContext s env = ⟨.ok .null, s, []⟩ ∧
      openUrl s env url = ⟨.ok (.bool false), s, []⟩) ∧
    (s.walletType = "farcaster" →
      (∀ e, env.context = .error e → (getFarcasterContext s env).result = .ok .null) ∧
      (∀ e, env.openUrl url = .error e → (openUrl s env url).result = .ok (.bool false))) ∧
    (∃ v, (getFarcasterContext s env).result = .ok v) ∧
    (∃ b, (openUrl s env url).result = .ok (.bool b)) := by
  refine ⟨?_, ?_, ?_, ?_⟩
  · intro h
    simp [getFarcasterContext, openUrl, h]
  · intro h
    refine ⟨?_, ?_⟩
    · intro e he
      simp [getFarcasterContext, h, he]
    · intro e he
      simp [openUrl, h, he]
  · unfold getFarcasterContext
    split
    · split <;> simp
    · simp
  · unfold openUrl
    split
    · split <;> simp
    · simp

/-! ## Properties of `sendTransaction` -/

/-- C5, as stated, fails: after `initializeWallet()` took the injected path
no account request has been made on any provider and no address is stored,
yet `sendTransaction` forwards the transaction to the stored provider and
resolves to its answer. -/
theorem sendTransaction_forwards_without_connection :
    (∀ ev ∈ (initializeWallet State.initial (envInjected (.ok (.str "0xHASH")))).trace,
      ev.isRequest = false) ∧
    getAddress (initializeWallet State.initial (envInjected (.ok (.str "0xHASH")))).state
      = .null ∧
    sendTransaction (initializeWallet State.initial (envInjected (.ok (.str "0xHASH")))).state
        (envInjected (.ok (.str "0xHASH"))) (.obj 7 [])
      = ⟨.ok (.str "0xHASH"),
         { provider := injected, userAddress := .null, walletType := "metamask" },
         [.request injected (sendTransactionArgs (.obj 7 []))]⟩ := by
  refine ⟨?_, rfl, rfl⟩
  intro ev hev
  have ht : (initializeWallet State.initial (envInjected (.ok (.str "0xHASH")))).trace
      = [.sdkReady 1000] := rfl
  rw [ht] at hev
  simp at hev
  subst hev
  rfl

/-- C5, amended: for every state, environment and `txParams`,
`sendTransaction` fails with the error `No wallet connected`, leaves the
state unchanged and sends nothing when the provider field is unset (as in the
initial state); when a provider is stored, whether or not an account request
ever succeeded, it sends exactly one `eth_sendTransaction` request carrying
`txParams` to that provider and resolves or rejects as the provider does. -/
theorem sendTransaction_requires_provider (s : State) (env : Env) (txParams : JSVal) :
    (s.provider.truthy = false →
      sendTransaction s env txParams = ⟨.error (.error "No wallet connected"), s, []⟩) ∧
    (s.provider.truthy = true →
      sendTransaction s env txParams =
        ⟨env.request s.provider (sendTransactionArgs txParams), s,
         [.request s.provider (sendTransactionArgs txParams)]⟩) ∧
    sendTransaction State.initial env txParams =
      ⟨.error (.error "No wallet connected"), State.initial, []⟩ := by
  refine ⟨?_, ?_, rfl⟩
  · intro h
    simp [sendTransaction, h]
  · intro h
    simp [sendTransaction, h]

/-- An instance of the amended C5: at the state with the injected provider
stored and no address, the transaction is forwarded to that provider. -/
theorem sendTransaction_requires_provider_witness :
    sendTransaction { provider := injected, userAddress := .null, walletType := "metamask" }
        (envInjected (.ok (.str "0xHASH"))) (.num 1) =
      ⟨.ok (.str "0xHASH"),
       { provider := injected, userAddress := .null, walletType := "metamask" },
       [.request injected (sendTransactionArgs (.num 1))]⟩ :=
  (sendTransaction_requires_provider
    { provider := injected, userAddress := .null, walletType := "metamask" }
    (envInjected (.ok (.str "0xHASH"))) (.num 1)).2.1 rfl

/-! ## Evaluation of `accounts && accounts[0]` -/

/-- Reading `v[0]` of a truthy value does not throw. -/
theorem index0_ok_of_truthy (v : JSVal) (h : v.truthy = true) : ∃ a, v.index0 = .ok a := by
  cases v with
  | undefined => simp [JSVal.truthy] at h
  | null => simp [JSVal.truthy] at h
  | str s =>
    simp only [JSVal.index0]
    split <;> exact ⟨_, rfl⟩
  | arr items => cases items <;> exact ⟨_, rfl⟩
  | bool b => exact ⟨_, rfl⟩
  | num n => exact ⟨_, rfl⟩
  | nan => exact ⟨_, rfl⟩
  | obj id props => exact ⟨_, rfl⟩
  | error m => exact ⟨_, rfl⟩
  | typeError => exact ⟨_, rfl⟩

/-- The expression `accounts && accounts[0]` never throws. -/
theorem andIndex0_ok (accounts : JSVal) : ∃ c, accounts.andIndex0 = .ok c := by
  unfold JSVal.andIndex0
  by_cases h : accounts.truthy = true
  · simpa [h] using index0_ok_of_truthy accounts h
  · simp [h]

/-- When `accounts && accounts[0]` is truthy, `accounts[0]` evaluates to that
same value. -/
theorem index0_of_andIndex0 (accounts c : JSVal) (h : accounts.andIndex0 = .ok c)
    (hc : c.truthy = true) : accounts.index0 = .ok c := by
  unfold JSVal.andIndex0 at h
  by_cases ht : accounts.truthy = true
  · simpa [ht] using h
  · simp [ht] at h
    subst h
    exact absurd hc ht

/-! ## Properties of `connectWallet` -/

/-- The ways a call of `connectWallet()` can go: no provider can be
acquired; the account request rejects; the request yields no address; the
request yields an address, and then the first subscription throws, or the
second one does, or both return. -/
theorem connectWallet_cases (s : State) (env : Env) :
    (∃ e, acquireProvider s env = .error e ∧ connectWallet s env = ⟨.error e, s, []⟩) ∨
    (∃ s1 e, acquireProvider s env = .ok s1 ∧
      env.request s1.provider requestAccounts = .error e ∧
      connectWallet s env = ⟨.error e, s1, [.request s1.provider requestAccounts]⟩) ∨
    (∃ s1 accounts c, acquireProvider s env = .ok s1 ∧
      env.request s1.provider requestAccounts = .ok accounts ∧
      accounts.andIndex0 = .ok c ∧ c.truthy = false ∧
      connectWallet s env = ⟨.ok .undefined, s1, [.request s1.provider requestAccounts]⟩) ∨
    (∃ s1 accounts a, acquireProvider s env = .ok s1 ∧
      env.request s1.provider requestAccounts = .ok accounts ∧
      accounts.andIndex0 = .ok a ∧ a.truthy = true ∧
      ((∃ e, env.subscribe s1.provider "accountsChanged" = .error e ∧
          connectWallet s env =
            ⟨.error e, { s1 with userAddress := a },
             [.request s1.provider requestAccounts,
              .onThrew s1.provider "accountsChanged"]⟩) ∨
        (∃ e, env.subscribe s1.provider "accountsChanged" = .ok () ∧
          env.subscribe s1.provider "chainChanged" = .error e ∧
          connectWallet s env =
            ⟨.error e, { s1 with userAddress := a },
             [.request s1.provider requestAccounts,
              .on s1.provider "accountsChanged" .accountsChanged,
              .onThrew s1.provider "chainChanged"]⟩) ∨
        (env.subscribe s1.provider "accountsChanged" = .ok () ∧
          env.subscribe s1.provider "chainChanged" = .ok () ∧
          connectWallet s env =
            ⟨.ok a, { s1 with userAddress := a },
             [.request s1.provider requestAccounts,
              .on s1.provider "accountsChanged" .accountsChanged,
              .on s1.provider "chainChanged" .chainChanged]⟩))) := by
  cases hacq : acquireProvider s env with
  | error e =>
    left
    exact ⟨e, rfl, by simp [connectWallet, hacq]⟩
  | ok s1 =>
    right
    cases hreq : env.request s1.provider requestAccounts with
    | error e =>
      left
      exact ⟨s1, e, rfl, hreq, by simp [connectWallet, hacq, hreq]⟩
    | ok accounts =>
      right
      obtain ⟨c, hc⟩ := andIndex0_ok accounts
      by_cases ht : c.truthy = true
      · right
        have hi := index0_of_andIndex0 accounts c hc ht
        refine ⟨s1, accounts, c, rfl, hreq, hc, ht, ?_⟩
        cases h1 : env.subscribe s1.provider "accountsChanged" with
        | error e =>
          left
          exact ⟨e, rfl, by simp [connectWallet, hacq, hreq, hc, ht, hi, h1]⟩
        | ok u =>
          right
          cases h2 : env.subscribe s1.provider "chainChanged" with
          | error e =>
            left
            exact ⟨e, rfl, rfl, by simp [connectWallet, hacq, hreq, hc, ht, hi, h1, h2]⟩
          | ok v =>
            right
            exact ⟨rfl, rfl, by simp [connectWallet, hacq, hreq, hc, ht, hi, h1, h2]⟩
      · left
        have hf : c.truthy = false := by simpa using ht
        exact ⟨s1, accounts, c, rfl, hreq, hc, hf,
          by simp [connectWallet, hacq, hreq, hc, hf]⟩

/-- The provider stored after `acquireProvider` is the one stored before when
that is set, and `window.ethereum` otherwise. -/
theorem acquireProvider_provider (s s1 : State) (env : Env)
    (h : acquireProvider s env = .ok s1) :
    (s.provider.truthy = true ∧ s1 = s) ∨
    (s.provider.truthy = false ∧ env.ethereum.truthy = true ∧
      s1 = { s with provider := env.ethereum, walletType := "metamask" }) := by
  unfold acquireProvider at h
  by_cases hp : s.provider.truthy = true
  · left
    simp [hp] at h
    exact ⟨hp, h.symm⟩
  · right
    have hf : s.provider.truthy = false := by simpa using hp
    by_cases he : env.ethereum.truthy = true
    · simp [hf, he] at h
      exact ⟨hf, he, h.symm⟩
    · simp [hf, he] at h

/-- A call whose account request, made on `p`, returned a list with a truthy
first entry `a`: the address is stored, and the outcome is decided by the two
subscriptions. -/
theorem connectWallet_of_address (s : State) (env : Env) (p a : JSVal) (rest : List JSVal)
    (hmem : Event.request p requestAccounts ∈ (connectWallet s env).trace)
    (hreq : env.request p requestAccounts = .ok (.arr (a :: rest)))
    (ha : a.truthy = true) :
    ∃ s1, acquireProvider s env = .ok s1 ∧ s1.provider = p ∧
      ((∃ e, env.subscribe p "accountsChanged" = .error e ∧
          connectWallet s env =
            ⟨.error e, { s1 with userAddress := a },
             [.request p requestAccounts, .onThrew p "accountsChanged"]⟩) ∨
        (∃ e, env.subscribe p "accountsChanged" = .ok () ∧
          env.subscribe p "chainChanged" = .error e ∧
          connectWallet s env =
            ⟨.error e, { s1 with userAddress := a },
             [.request p requestAccounts,
              .on p "accountsChanged" .accountsChanged,
              .onThrew p "chainChanged"]⟩) ∨
        (env.subscribe p "accountsChanged" = .ok () ∧
          env.subscribe p "chainChanged" = .ok () ∧
          connectWallet s env =
            ⟨.ok a, { s1 with userAddress := a },
             [.request p requestAccounts,
              .on p "accountsChanged" .accountsChanged,
              .on p "chainChanged" .chainChanged]⟩)) := by
  rcases connectWallet_cases s env with
    ⟨e, _, h⟩ | ⟨s1, e, _, hr, h⟩ | ⟨s1, acc, c, _, hr, hc, hcf, h⟩ |
    ⟨s1, acc, c, hacq, hr, hc, hct, hon⟩
  · simp [h] at hmem
  · simp [h] at hmem
    subst hmem
    simp [hr] at hreq
  · simp [h] at hmem
    subst hmem
    simp [hr] at hreq
    subst hreq
    simp [JSVal.andIndex0, JSVal.truthy, JSVal.index0] at hc
    subst hc
    simp [ha] at hcf
  · have hp : p = s1.provider := by
      rcases hon with ⟨e, _, h⟩ | ⟨e, _, _, h⟩ | ⟨_, _, h⟩ <;>
      · simp [h] at hmem
        exact hmem
    subst hp
    simp [hr] at hreq
    subst hreq
    simp [JSVal.andIndex0, JSVal.truthy, JSVal.index0] at hc
    subst hc
    exact ⟨s1, hacq, rfl, hon⟩

/-- C7, as stated, fails: the extension answers the account request with a
list whose first entry is non-empty and its `chainChanged` subscription
throws.  The call rejects, although the `accountsChanged` handler has been
registered (and the address stored), and no `chainChanged` handler is
registered. -/
theorem connectWallet_rejects_after_registration :
    envChainChangedThrows.request injected requestAccounts = .ok (.arr [.str "0xDEF"]) ∧
    connectWallet State.initial envChainChangedThrows =
      ⟨.error (.error "unsupported event"),
       { provider := injected, userAddress := .str "0xDEF", walletType := "metamask" },
       [.request injected requestAccounts,
        .on injected "accountsChanged" .accountsChanged,
        .onThrew injected "chainChanged"]⟩ :=
  ⟨rfl, rfl⟩

/-- C7, amended: in a call of `connectWallet()` whose account request, made
on a provider `p`, returns a list with a truthy (non-empty) first entry `a`,
when both `p.on` calls return the calls made are exactly that request
followed by one `accountsChanged` and one `chainChanged` registration, both
on `p`, which is the stored provider, and the call resolves to `a`; when the
first `p.on` call throws the call rejects with the thrown value, `a` is
stored and no handler is registered; when the second throws the call rejects
with the thrown value, `a` is stored and only the `accountsChanged` handler
is registered.  A call that finds no provider makes no call at all; a call
whose account request rejects rejects with that value and registers no
handler; and a call whose request returns an empty result (a falsy value,
the empty list, or a list with a falsy first entry) registers no handler. -/
theorem connectWallet_registers_handlers (s : State) (env : Env) :
    (∀ p a rest, Event.request p requestAccounts ∈ (connectWallet s env).trace →
      env.request p requestAccounts = .ok (.arr (a :: rest)) → a.truthy = true →
      (env.subscribe p "accountsChanged" = .ok () → env.subscribe p "chainChanged" = .ok () →
        (connectWallet s env).trace =
          [.request p requestAccounts,
           .on p "accountsChanged" .accountsChanged,
           .on p "chainChanged" .chainChanged] ∧
        (connectWallet s env).state.provider = p ∧
        (connectWallet s env).result = .ok a) ∧
      (∀ e, env.subscribe p "accountsChanged" = .error e →
        (connectWallet s env).trace =
          [.request p requestAccounts, .onThrew p "accountsChanged"] ∧
        (connectWallet s env).result = .error e ∧
        getAddress (connectWallet s env).state = a) ∧
      (∀ e, env.subscribe p "accountsChanged" = .ok () → env.subscribe p "chainChanged" = .error e →
        (connectWallet s env).trace =
          [.request p requestAccounts,
           .on p "accountsChanged" .accountsChanged,
           .onThrew p "chainChanged"] ∧
        (connectWallet s env).result = .error e ∧
        getAddress (connectWallet s env).state = a)) ∧
    (s.provider.truthy = false → env.ethereum.truthy = false →
      connectWallet s env = ⟨.error (.error "No wallet available"), s, []⟩) ∧
    (∀ p e, Event.request p requestAccounts ∈ (connectWallet s env).trace →
      env.request p requestAccounts = .error e →
      (connectWallet s env).result = .error e ∧
      ∀ ev ∈ (connectWallet s env).trace, ev.isOn = false) ∧
    (∀ p accounts, Event.request p requestAccounts ∈ (connectWallet s env).trace →
      env.request p requestAccounts = .ok accounts →
      (accounts.truthy = false ∨ accounts = .arr [] ∨
        ∃ a rest, accounts = .arr (a :: rest) ∧ a.truthy = false) →
      ∀ ev ∈ (connectWallet s env).trace, ev.isOn = false) := by
  refine ⟨?_, ?_, ?_, ?_⟩
  · intro p a rest hmem hreq ha
    obtain ⟨s1, _, hp, hon⟩ := connectWallet_of_address s env p a rest hmem hreq ha
    refine ⟨?_, ?_, ?_⟩
    · intro h1 h2
      rcases hon with ⟨e, he, _⟩ | ⟨e, _, he, _⟩ | ⟨_, _, h⟩
      · rw [h1] at he
        cases he
      · rw [h2] at he
        cases he
      · rw [h]
        exact ⟨rfl, hp, rfl⟩
    · intro e h1
      rcases hon with ⟨e1, he, h⟩ | ⟨e1, he, _, _⟩ | ⟨he, _, _⟩
      · rw [h1] at he
        cases he
        rw [h]
        exact ⟨rfl, rfl, rfl⟩
      · rw [h1] at he
        cases he
      · rw [h1] at he
        cases he
    · intro e h1 h2
      rcases hon with ⟨e1, he, _⟩ | ⟨e1, _, he, h⟩ | ⟨_, he, _⟩
      · rw [h1] at he
        cases he
      · rw [h2] at he
        cases he
        rw [h]
        exact ⟨rfl, rfl, rfl⟩
      · rw [h2] at he
        cases he
  · intro hp he
    simp [connectWallet, acquireProvider, hp, he]
  · intro p e hmem hreq
    rcases connectWallet_cases s env with
      ⟨e1, _, h⟩ | ⟨s1, e1, _, hr, h⟩ | ⟨s1, acc, c, _, hr, _, _, h⟩ |
      ⟨s1, acc, c, _, hr, _, _, hon⟩
    · simp [h] at hmem
    · simp [h] at hmem
      subst hmem
      rw [hr] at hreq
      cases hreq
      rw [h]
      refine ⟨rfl, ?_⟩
      intro ev hev
      simp at hev
      subst hev
      rfl
    · simp [h] at hmem
      subst hmem
      rw [hr] at hreq
      cases hreq
    · have hp : p = s1.provider := by
        rcases hon with ⟨e2, _, h⟩ | ⟨e2, _, _, h⟩ | ⟨_, _, h⟩ <;>
        · simp [h] at hmem
          exact hmem
      subst hp
      rw [hr] at hreq
      cases hreq
  · intro p accounts hmem hreq hempty ev hev
    have hfalsy : ∀ c, accounts.andIndex0 = .ok c → c.truthy = false := by
      intro c hc
      rcases hempty with h | h | ⟨a, rest, h, ha⟩
      · simp [JSVal.andIndex0, h] at hc
        subst hc
        exact h
      · subst h
        simp [JSVal.andIndex0, JSVal.truthy, JSVal.index0] at hc
        subst hc
        rfl
      · subst h
        simp [JSVal.andIndex0, JSVal.truthy, JSVal.index0] at hc
        subst hc
        exact ha
    rcases connectWallet_cases s env with
      ⟨e, _, h⟩ | ⟨s1, e, _, hr, h⟩ | ⟨s1, acc, c, _, hr, hc, hcf, h⟩ |
      ⟨s1, acc, c, _, hr, hc, hct, hon⟩
    · simp [h] at hmem
    · simp [h] at hev
      subst hev
      rfl
    · simp [h] at hev
      subst hev
      rfl
    · have hp : p = s1.provider := by
        rcases hon with ⟨e2, _, h⟩ | ⟨e2, _, _, h⟩ | ⟨_, _, h⟩ <;>
        · simp [h] at hmem
          exact hmem
      subst hp
      rw [hr] at hreq
      cases hreq
      have := hfalsy c hc
      simp [this] at hct

/-- An instance of the amended C7: on the extension answering with the
one-entry list of the address `0xDEF` and accepting both subscriptions, one
handler of each kind is registered on it. -/
theorem connectWallet_registers_handlers_witness :
    (connectWallet State.initial (envInjected (.ok (.arr [.str "0xDEF"])))).trace =
        [.request injected requestAccounts,
         .on injected "accountsChanged" .accountsChanged,
         .on injected "chainChanged" .chainChanged] ∧
      (connectWallet State.initial (envInjected (.ok (.arr [.str "0xDEF"])))).state.provider
        = injected ∧
      (connectWallet State.initial (envInjected (.ok (.arr [.str "0xDEF"])))).result
        = .ok (.str "0xDEF") :=
  ((connectWallet_registers_handlers State.initial
      (envInjected (.ok (.arr [.str "0xDEF"])))).1 injected (.str "0xDEF") []
    (by simp [connectWallet, acquireProvider, envInjected, envNone, State.initial,
          JSVal.truthy, JSVal.andIndex0, JSVal.index0, injected])
    rfl rfl).1 rfl rfl

/-! ## The handlers registered by `connectWallet` -/

/-- C9, as stated, fails: the `accountsChanged` handler registered by
`connectWallet()` does not reload when it receives the empty account list. -/
theorem accountsChanged_empty_list_no_reload :
    (∃ p, Event.on p "accountsChanged" Handler.accountsChanged ∈
        (connectWallet State.initial (envInjected (.ok (.arr [.str "0xDEF"])))).trace) ∧
    Handler.run .accountsChanged (.arr []) = .ok [] := by
  refine ⟨⟨injected, ?_⟩, rfl⟩
  simp [connectWallet, acquireProvider, envInjected, envNone, State.initial, JSVal.truthy,
    JSVal.andIndex0, JSVal.index0, injected]

/-- C9, amended: the handlers `connectWallet()` registers are the
`accountsChanged` closure under the name `accountsChanged` and the
`chainChanged` closure under the name `chainChanged`; the `accountsChanged`
handler reloads the page exactly when the first entry of the account list it
receives is truthy (so not for the empty list), and the `chainChanged`
handler reloads on every notification. -/
theorem handlers_reload_policy (s : State) (env : Env) :
    (∀ p name h, Event.on p name h ∈ (connectWallet s env).trace →
      (name = "accountsChanged" ∧ h = .accountsChanged) ∨
      (name = "chainChanged" ∧ h = .chainChanged)) ∧
    (∀ accounts : List JSVal,
      Handler.run .accountsChanged (.arr accounts) =
        .ok (if (accounts.headD .undefined).truthy then [Event.reload] else [])) ∧
    (∀ arg, Handler.run .chainChanged arg = .ok [Event.reload]) := by
  refine ⟨?_, ?_, ?_⟩
  · intro p name h hmem
    rcases connectWallet_cases s env with
      ⟨e, _, hc⟩ | ⟨s1, e, _, _, hc⟩ | ⟨s1, acc, c, _, _, _, _, hc⟩ |
      ⟨s1, acc, c, _, _, _, _, hon⟩
    · simp [hc] at hmem
    · simp [hc] at hmem
    · simp [hc] at hmem
    · rcases hon with ⟨e, _, hc⟩ | ⟨e, _, _, hc⟩ | ⟨_, _, hc⟩
      · simp [hc] at hmem
      · simp [hc] at hmem
        exact Or.inl ⟨hmem.2.1, hmem.2.2⟩
      · simp [hc] at hmem
        rcases hmem with ⟨_, h1, h2⟩ | ⟨_, h1, h2⟩
        · exact Or.inl ⟨h1, h2⟩
        · exact Or.inr ⟨h1, h2⟩
  · intro accounts
    cases accounts with
    | nil => simp [Handler.run, JSVal.index0, JSVal.truthy]
    | cons a rest =>
      simp only [Handler.run, JSVal.index0, List.headD_cons]
      split <;> rfl
  · intro arg
    rfl

/-! ## The paths through `initializeWallet` -/

/-- The six ways through the `try` block of `initializeWallet`: readiness
rejects; the handle request rejects; the handle is falsy; the account request
rejects; the account request yields no address; it yields an address. -/
theorem farcasterBody_cases (s : State) (env : Env) :
    (∃ e, env.ready = .error e ∧
      farcasterBody s env = ⟨.error e, s, [.sdkReady 1000]⟩) ∨
    (∃ e, env.ready = .ok () ∧ env.getEthereumProvider = .error e ∧
      farcasterBody s env = ⟨.error e, s, [.sdkReady 1000, .sdkGetEthereumProvider]⟩) ∨
    (∃ p, env.ready = .ok () ∧ env.getEthereumProvider = .ok p ∧ p.truthy = false ∧
      farcasterBody s env =
        ⟨.ok none, { s with provider := p }, [.sdkReady 1000, .sdkGetEthereumProvider]⟩) ∨
    (∃ p e, env.ready = .ok () ∧ env.getEthereumProvider = .ok p ∧ p.truthy = true ∧
      env.request p requestAccounts = .error e ∧
      farcasterBody s env =
        ⟨.error e, ⟨p, s.userAddress, "farcaster"⟩,
         [.sdkReady 1000, .sdkGetEthereumProvider, .request p requestAccounts]⟩) ∨
    (∃ p accounts c, env.ready = .ok () ∧ env.getEthereumProvider = .ok p ∧
      p.truthy = true ∧ env.request p requestAccounts = .ok accounts ∧
      accounts.andIndex0 = .ok c ∧ c.truthy = false ∧
      farcasterBody s env =
        ⟨.ok none, ⟨p, s.userAddress, "farcaster"⟩,
         [.sdkReady 1000, .sdkGetEthereumProvider, .request p requestAccounts]⟩) ∨
    (∃ p accounts a, env.ready = .ok () ∧ env.getEthereumProvider = .ok p ∧
      p.truthy = true ∧ env.request p requestAccounts = .ok accounts ∧
      accounts.andIndex0 = .ok a ∧ a.truthy = true ∧
      farcasterBody s env =
        ⟨.ok (some ⟨.str "farcaster", a, .bool true⟩), ⟨p, a, "farcaster"⟩,
         [.sdkReady 1000, .sdkGetEthereumProvider, .request p requestAccounts]⟩) := by
  cases hready : env.ready with
  | error e =>
    left
    exact ⟨e, rfl, by simp [farcasterBody, hready]⟩
  | ok u =>
    right
    cases hget : env.getEthereumProvider with
    | error e =>
      left
      exact ⟨e, rfl, rfl, by simp [farcasterBody, hready, hget]⟩
    | ok p =>
      right
      by_cases hp : p.truthy = true
      · right
        cases hreq : env.request p requestAccounts with
        | error e =>
          left
          exact ⟨p, e, rfl, rfl, hp, hreq, by simp [farcasterBody, hready, hget, hp, hreq]⟩
        | ok accounts =>
          right
          obtain ⟨c, hc⟩ := andIndex0_ok accounts
          by_cases ht : c.truthy = true
          · right
            have hi := index0_of_andIndex0 accounts c hc ht
            exact ⟨p, accounts, c, rfl, rfl, hp, hreq, hc, ht,
              by simp [farcasterBody, hready, hget, hp, hreq, hc, ht, hi]⟩
          · left
            have hf : c.truthy = false := by simpa using ht
            exact ⟨p, accounts, c, rfl, rfl, hp, hreq, hc, hf,
              by simp [farcasterBody, hready, hget, hp, hreq, hc, hf]⟩
      · left
        have hf : p.truthy = false := by simpa using hp
        exact ⟨p, rfl, rfl, hf, by simp [farcasterBody, hready, hget, hf]⟩

/-- Reading `err.message` throws exactly on `null` and `undefined`. -/
theorem evalMessage_eq (e : JSVal) :
    e.evalMessage = if e.nullish then .error .typeError else .ok () := by
  cases e <;> rfl

/-- A throw inside the `try` block: the catch handler either throws itself
(on a `null` or `undefined` value) or execution continues after the `try`. -/
theorem initializeWallet_of_body_error (s s1 : State) (env : Env) (e : JSVal)
    (t : List Event) (h : farcasterBody s env = ⟨.error e, s1, t⟩) :
    initializeWallet s env =
      if e.nullish then ⟨.error .typeError, s1, t⟩
      else ⟨(checkMetaMask s1 env).result, (checkMetaMask s1 env).state, t⟩ := by
  by_cases hn : e.nullish = true
  · simp [initializeWallet, tryFarcaster, h, evalMessage_eq, hn]
  · simp [initializeWallet, tryFarcaster, h, evalMessage_eq, hn, checkMetaMask]
    split <;> simp

/-- Reaching the end of the `try` block: execution continues after it. -/
theorem initializeWallet_of_body_none (s s1 : State) (env : Env) (t : List Event)
    (h : farcasterBody s env = ⟨.ok none, s1, t⟩) :
    initializeWallet s env =
      ⟨(checkMetaMask s1 env).result, (checkMetaMask s1 env).state, t⟩ := by
  simp [initializeWallet, tryFarcaster, h, checkMetaMask]
  split <;> simp

/-- A `return` inside the `try` block is the result of the call. -/
theorem initializeWallet_of_body_some (s s1 : State) (env : Env) (t : List Event)
    (info : WalletInfo) (h : farcasterBody s env = ⟨.ok (some info), s1, t⟩) :
    initializeWallet s env = ⟨.ok info, s1, t⟩ := by
  simp [initializeWallet, tryFarcaster, h]

/-- The statements after the `try` resolve to the `metamask` record when
`window.ethereum` is truthy and to the `none` record otherwise. -/
theorem checkMetaMask_eq (s : State) (env : Env) :
    (env.ethereum.truthy = true ∧
      checkMetaMask s env =
        ⟨.ok ⟨.str "metamask", .null, .bool false⟩,
         ⟨env.ethereum, s.userAddress, "metamask"⟩, []⟩) ∨
    (env.ethereum.truthy = false ∧
      checkMetaMask s env = ⟨.ok ⟨.str "none", .null, .bool false⟩, s, []⟩) := by
  by_cases h : env.ethereum.truthy = true
  · left
    exact ⟨h, by simp [checkMetaMask, h]⟩
  · right
    have hf : env.ethereum.truthy = false := by simpa using h
    exact ⟨hf, by simp [checkMetaMask, hf]⟩

/-- The calls made by `initializeWallet` are those made inside the `try`
block. -/
theorem initializeWallet_trace (s : State) (env : Env) :
    (initializeWallet s env).trace = (farcasterBody s env).trace := by
  rcases hb : farcasterBody s env with ⟨r, s1, t⟩
  cases r with
  | error e =>
    rw [initializeWallet_of_body_error s s1 env e t hb]
    split <;> rfl
  | ok o =>
    cases o with
    | none => rw [initializeWallet_of_body_none s s1 env t hb]
    | some info => rw [initializeWallet_of_body_some s s1 env t info hb]

/-! ## Properties of `initializeWallet` -/

/-- C1, as stated, fails in two ways: when host readiness rejects with
`null` the call rejects (with the `TypeError` raised in the catch handler),
and when the host provider answers `[42]` the call resolves to a record
whose address is the number `42`, neither a string nor `null`. -/
theorem initializeWallet_rejects_or_resolves_non_string :
    (initializeWallet State.initial { envNone with ready := .error .null }).result
      = .error .typeError ∧
    (initializeWallet State.initial (envHost (.ok (.arr [.num 42])) .undefined)).result
      = .ok ⟨.str "farcaster", .num 42, .bool true⟩ :=
  ⟨rfl, rfl⟩

/-- C1, amended: from every state and for every behaviour of the host SDK
and the providers in which no rejection value is `null` or `undefined`,
`initializeWallet()` resolves to a record whose type is `farcaster`,
`metamask` or `none`, whose address is `null` or else the truthy first entry
`accounts[0]` of the value the host provider returned for
`eth_requestAccounts`, and whose connected flag is a boolean. -/
theorem initializeWallet_resolves_with_record (s : State) (env : Env)
    (hready : ∀ e, env.ready = .error e → e.nullish = false)
    (hget : ∀ e, env.getEthereumProvider = .error e → e.nullish = false)
    (hreq : ∀ p e, env.request p requestAccounts = .error e → e.nullish = false) :
    ∃ info, (initializeWallet s env).result = .ok info ∧
      (info.type = .str "farcaster" ∨ info.type = .str "metamask" ∨
        info.type = .str "none") ∧
      (info.address = .null ∨
        (info.address.truthy = true ∧
          ∃ p accounts, env.getEthereumProvider = .ok p ∧
            env.request p requestAccounts = .ok accounts ∧
            accounts.index0 = .ok info.address)) ∧
      (info.connected = .bool true ∨ info.connected = .bool false) := by
  have hfall : ∀ s1 t,
      initializeWallet s env =
        ⟨(checkMetaMask s1 env).result, (checkMetaMask s1 env).state, t⟩ →
      ∃ info, (initializeWallet s env).result = .ok info ∧
        (info.type = .str "farcaster" ∨ info.type = .str "metamask" ∨
          info.type = .str "none") ∧
        (info.address = .null ∨
          (info.address.truthy = true ∧
            ∃ p accounts, env.getEthereumProvider = .ok p ∧
              env.request p requestAccounts = .ok accounts ∧
              accounts.index0 = .ok info.address)) ∧
        (info.connected = .bool true ∨ info.connected = .bool false) := by
    intro s1 t h
    rcases checkMetaMask_eq s1 env with ⟨_, hm⟩ | ⟨_, hm⟩
    · exact ⟨_, by rw [h, hm], by simp, by simp, by simp⟩
    · exact ⟨_, by rw [h, hm], by simp, by simp, by simp⟩
  rcases farcasterBody_cases s env with
    ⟨e, hr, hb⟩ | ⟨e, _, hg, hb⟩ | ⟨p, _, _, _, hb⟩ | ⟨p, e, _, _, _, hq, hb⟩ |
    ⟨p, acc, c, _, _, _, _, _, _, hb⟩ | ⟨p, acc, a, _, hg, _, hq, hc, ha, hb⟩
  · have h := initializeWallet_of_body_error s _ env e _ hb
    simp [hready e hr] at h
    exact hfall _ _ h
  · have h := initializeWallet_of_body_error s _ env e _ hb
    simp [hget e hg] at h
    exact hfall _ _ h
  · exact hfall _ _ (initializeWallet_of_body_none s _ env _ hb)
  · have h := initializeWallet_of_body_error s _ env e _ hb
    simp [hreq p e hq] at h
    exact hfall _ _ h
  · exact hfall _ _ (initializeWallet_of_body_none s _ env _ hb)
  · have h := initializeWallet_of_body_some s _ env _ _ hb
    exact ⟨_, by rw [h], Or.inl rfl,
      Or.inr ⟨ha, p, acc, hg, hq, index0_of_andIndex0 acc a hc ha⟩, Or.inl rfl⟩

/-- An instance of the amended C1: readiness rejects with an `Error` and an
extension is present. -/
theorem initializeWallet_resolves_with_record_witness :
    ∃ info, (initializeWallet State.initial (envInjected (.ok (.arr [])))).result = .ok info ∧
      (info.type = .str "farcaster" ∨ info.type = .str "metamask" ∨
        info.type = .str "none") ∧
      (info.address = .null ∨
        (info.address.truthy = true ∧
          ∃ p accounts, (envInjected (.ok (.arr []))).getEthereumProvider = .ok p ∧
            (envInjected (.ok (.arr []))).request p requestAccounts = .ok accounts ∧
            accounts.index0 = .ok info.address)) ∧
      (info.connected = .bool true ∨ info.connected = .bool false) :=
  initializeWallet_resolves_with_record State.initial (envInjected (.ok (.arr [])))
    (by
      intro e h
      simp [envInjected, envNone] at h
      subst h
      rfl)
    (by
      intro e h
      simp [envInjected, envNone] at h
      subst h
      rfl)
    (by
      intro p e h
      simp [envInjected] at h)

/-- C2: the code at the failing input.  Host readiness rejects with `null`
and an extension is present: the catch handler throws on `err.message`, so
the call rejects with a `TypeError` instead of resolving to the `metamask`
record, and the extension is never stored. -/
theorem initializeWallet_rejects_on_null_rejection :
    initializeWallet State.initial { envInjected (.ok (.arr [])) with ready := .error .null }
      = ⟨.error .typeError, State.initial, [.sdkReady 1000]⟩ :=
  rfl

/-- Away from `null` and `undefined` rejection values the three-way result
of `initializeWallet()` from the initial state is as specified: the
`farcaster` record with the first entry of the account list when the host
path yields a truthy one (and that entry and `farcaster` are then stored),
otherwise the `metamask` record when `window.ethereum` is truthy, otherwise
the `none` record. -/
theorem initializeWallet_three_way (env : Env)
    (hready : ∀ e, env.ready = .error e → e.nullish = false)
    (hget : ∀ e, env.getEthereumProvider = .error e → e.nullish = false)
    (hreq : ∀ p e, env.request p requestAccounts = .error e → e.nullish = false) :
    (∀ p accounts a, env.ready = .ok () → env.getEthereumProvider = .ok p →
      p.truthy = true → env.request p requestAccounts = .ok accounts →
      accounts.andIndex0 = .ok a → a.truthy = true →
      (initializeWallet State.initial env).result = .ok ⟨.str "farcaster", a, .bool true⟩ ∧
      getAddress (initializeWallet State.initial env).state = a ∧
      getWalletType (initializeWallet State.initial env).state = "farcaster") ∧
    ((¬ ∃ p accounts a, env.ready = .ok () ∧ env.getEthereumProvider = .ok p ∧
        p.truthy = true ∧ env.request p requestAccounts = .ok accounts ∧
        accounts.andIndex0 = .ok a ∧ a.truthy = true) →
      (env.ethereum.truthy = true →
        (initializeWallet State.initial env).result =
          .ok ⟨.str "metamask", .null, .bool false⟩) ∧
      (env.ethereum.truthy = false →
        (initializeWallet State.initial env).result =
          .ok ⟨.str "none", .null, .bool false⟩)) := by
  have hfall : ∀ s1 t,
      initializeWallet State.initial env =
        ⟨(checkMetaMask s1 env).result, (checkMetaMask s1 env).state, t⟩ →
      (env.ethereum.truthy = true →
        (initializeWallet State.initial env).result =
          .ok ⟨.str "metamask", .null, .bool false⟩) ∧
      (env.ethereum.truthy = false →
        (initializeWallet State.initial env).result =
          .ok ⟨.str "none", .null, .bool false⟩) := by
    intro s1 t h
    rcases checkMetaMask_eq s1 env with ⟨he, hm⟩ | ⟨he, hm⟩
    · refine ⟨fun _ => by rw [h, hm], fun hf => ?_⟩
      rw [he] at hf
      cases hf
    · refine ⟨fun ht => ?_, fun _ => by rw [h, hm]⟩
      rw [he] at ht
      cases ht
  refine ⟨?_, ?_⟩
  · intro p accounts a hr hg hp hq hc ha
    have hi := index0_of_andIndex0 accounts a hc ha
    have h : initializeWallet State.initial env =
        ⟨.ok ⟨.str "farcaster", a, .bool true⟩, ⟨p, a, "farcaster"⟩,
         [.sdkReady 1000, .sdkGetEthereumProvider, .request p requestAccounts]⟩ := by
      apply initializeWallet_of_body_some
      simp [farcasterBody, hr, hg, hp, hq, hc, ha, hi, State.initial]
    rw [h]
    exact ⟨rfl, rfl, rfl⟩
  · intro hno
    rcases farcasterBody_cases State.initial env with
      ⟨e, hr, hb⟩ | ⟨e, _, hg, hb⟩ | ⟨p, _, _, _, hb⟩ | ⟨p, e, _, _, _, hq, hb⟩ |
      ⟨p, acc, c, _, _, _, _, _, _, hb⟩ | ⟨p, acc, a, hr, hg, hp, hq, hc, ha, _⟩
    · have h := initializeWallet_of_body_error State.initial _ env e _ hb
      simp [hready e hr] at h
      exact hfall _ _ h
    · have h := initializeWallet_of_body_error State.initial _ env e _ hb
      simp [hget e hg] at h
      exact hfall _ _ h
    · exact hfall _ _ (initializeWallet_of_body_none State.initial _ env _ hb)
    · have h := initializeWallet_of_body_error State.initial _ env e _ hb
      simp [hreq p e hq] at h
      exact hfall _ _ h
    · exact hfall _ _ (initializeWallet_of_body_none State.initial _ env _ hb)
    · exact absurd ⟨p, acc, a, hr, hg, hp, hq, hc, ha⟩ hno

/-- C3: in every run of `initializeWallet()`, from every state and in every
environment, each `request` call is an `eth_requestAccounts` request on the
truthy handle the host SDK returned, at most one such call is made, the
statements of the injected path make no call at all (all calls of the run
are those of the `try` statement), and when the handle is not the injected
provider no request reaches the injected provider. -/
theorem initializeWallet_requests_only_host_handle (s : State) (env : Env) :
    (∀ p args, Event.request p args ∈ (initializeWallet s env).trace →
      env.getEthereumProvider = .ok p ∧ p.truthy = true ∧ args = requestAccounts) ∧
    ((initializeWallet s env).trace.filter Event.isRequest).length ≤ 1 ∧
    (∀ s1, (checkMetaMask s1 env).trace = []) ∧
    (initializeWallet s env).trace = (tryFarcaster s env).trace ∧
    (env.getEthereumProvider ≠ .ok env.ethereum →
      ∀ args, Event.request env.ethereum args ∉ (initializeWallet s env).trace) := by
  have h1 : ∀ p args, Event.request p args ∈ (initializeWallet s env).trace →
      env.getEthereumProvider = .ok p ∧ p.truthy = true ∧ args = requestAccounts := by
    intro p args hmem
    rw [initializeWallet_trace] at hmem
    rcases farcasterBody_cases s env with
      ⟨e, _, hb⟩ | ⟨e, _, _, hb⟩ | ⟨q, _, _, _, hb⟩ | ⟨q, e, _, hg, hq, _, hb⟩ |
      ⟨q, acc, c, _, hg, hq, _, _, _, hb⟩ | ⟨q, acc, a, _, hg, hq, _, _, _, hb⟩
    · simp [hb] at hmem
    · simp [hb] at hmem
    · simp [hb] at hmem
    · simp [hb] at hmem
      obtain ⟨hp, ha⟩ := hmem
      subst hp
      exact ⟨hg, hq, ha⟩
    · simp [hb] at hmem
      obtain ⟨hp, ha⟩ := hmem
      subst hp
      exact ⟨hg, hq, ha⟩
    · simp [hb] at hmem
      obtain ⟨hp, ha⟩ := hmem
      subst hp
      exact ⟨hg, hq, ha⟩
  refine ⟨h1, ?_, ?_, ?_, ?_⟩
  · rw [initializeWallet_trace]
    rcases farcasterBody_cases s env with
      ⟨e, _, hb⟩ | ⟨e, _, _, hb⟩ | ⟨q, _, _, _, hb⟩ | ⟨q, e, _, _, _, _, hb⟩ |
      ⟨q, acc, c, _, _, _, _, _, _, hb⟩ | ⟨q, acc, a, _, _, _, _, _, _, hb⟩ <;>
    simp [hb, Event.isRequest]
  · intro s1
    rcases checkMetaMask_eq s1 env with ⟨_, hm⟩ | ⟨_, hm⟩ <;> rw [hm]
  · rw [initializeWallet_trace]
    unfold tryFarcaster
    rcases hb : farcasterBody s env with ⟨r, s1, t⟩
    cases r with
    | error e =>
      simp only
      split <;> rfl
    | ok o => rfl
  · intro hne args hmem
    exact hne (h1 _ _ hmem).1

/-- C10: the code at the failing input.  The host SDK yields a handle whose
account request returns the empty list and no extension is present: the call
resolves to the `none` record, but the stored wallet type is `farcaster`,
the handle stays stored, and `sendTransaction` afterwards forwards to it
instead of failing. -/
theorem initializeWallet_none_record_with_farcaster_state :
    (initializeWallet State.initial (envHost (.ok (.arr [])) .undefined)).result
      = .ok ⟨.str "none", .null, .bool false⟩ ∧
    getWalletType (initializeWallet State.initial (envHost (.ok (.arr [])) .undefined)).state
      = "farcaster" ∧
    (initializeWallet State.initial (envHost (.ok (.arr [])) .undefined)).state.provider
      = hostHandle ∧
    sendTransaction (initializeWallet State.initial (envHost (.ok (.arr [])) .undefined)).state
        (envHost (.ok (.str "0xHASH")) .undefined) (.obj 7 [])
      = ⟨.ok (.str "0xHASH"), ⟨hostHandle, .null, "farcaster"⟩,
         [.request hostHandle (sendTransactionArgs (.obj 7 []))]⟩ :=
  ⟨rfl, rfl, rfl, rfl⟩

/-! ## Assignments to the module state -/

/-- After `initializeWallet` the state is the one the `try` block left, or
that state with `window.ethereum` stored as a `metamask` provider. -/
theorem initializeWallet_state_of_body (s : State) (env : Env) :
    (initializeWallet s env).state = (farcasterBody s env).state ∨
    (env.ethereum.truthy = true ∧
      (initializeWallet s env).state =
        ⟨env.ethereum, (farcasterBody s env).state.userAddress, "metamask"⟩) := by
  have hfall : ∀ s1 t,
      initializeWallet s env =
        ⟨(checkMetaMask s1 env).result, (checkMetaMask s1 env).state, t⟩ →
      (initializeWallet s env).state = s1 ∨
      (env.ethereum.truthy = true ∧
        (initializeWallet s env).state = ⟨env.ethereum, s1.userAddress, "metamask"⟩) := by
    intro s1 t h
    rcases checkMetaMask_eq s1 env with ⟨he, hm⟩ | ⟨_, hm⟩
    · right
      exact ⟨he, by rw [h, hm]⟩
    · left
      rw [h, hm]
  rcases hb : farcasterBody s env with ⟨r, s1, t⟩
  cases r with
  | error e =>
    have h := initializeWallet_of_body_error s s1 env e t hb
    by_cases hn : e.nullish = true
    · simp [hn] at h
      left
      rw [h]
    · simp [hn] at h
      exact hfall s1 t h
  | ok o =>
    cases o with
    | none => exact hfall s1 t (initializeWallet_of_body_none s s1 env t hb)
    | some info =>
      left
      rw [initializeWallet_of_body_some s s1 env t info hb]

/-- The provider and wallet type after `initializeWallet`: unchanged; or a
falsy value returned by the host SDK stored with the wallet type unchanged;
or a truthy host handle stored as `farcaster`; or `window.ethereum` stored
as `metamask`. -/
theorem initializeWallet_state_fields (s : State) (env : Env) :
    ((initializeWallet s env).state.provider = s.provider ∧
      (initializeWallet s env).state.walletType = s.walletType) ∨
    (∃ p, env.getEthereumProvider = .ok p ∧ p.truthy = false ∧
      (initializeWallet s env).state.provider = p ∧
      (initializeWallet s env).state.walletType = s.walletType) ∨
    (∃ p, env.getEthereumProvider = .ok p ∧ p.truthy = true ∧
      (initializeWallet s env).state.provider = p ∧
      (initializeWallet s env).state.walletType = "farcaster") ∨
    (env.ethereum.truthy = true ∧
      (initializeWallet s env).state.provider = env.ethereum ∧
      (initializeWallet s env).state.walletType = "metamask") := by
  rcases initializeWallet_state_of_body s env with h | ⟨he, h⟩
  · rw [h]
    rcases farcasterBody_cases s env with
      ⟨e, _, hb⟩ | ⟨e, _, _, hb⟩ | ⟨p, _, hg, hp, hb⟩ | ⟨p, e, _, hg, hp, _, hb⟩ |
      ⟨p, acc, c, _, hg, hp, _, _, _, hb⟩ | ⟨p, acc, a, _, hg, hp, _, _, _, hb⟩
    · left
      rw [hb]
      exact ⟨rfl, rfl⟩
    · left
      rw [hb]
      exact ⟨rfl, rfl⟩
    · right
      left
      rw [hb]
      exact ⟨p, hg, hp, rfl, rfl⟩
    · right
      right
      left
      rw [hb]
      exact ⟨p, hg, hp, rfl, rfl⟩
    · right
      right
      left
      rw [hb]
      exact ⟨p, hg, hp, rfl, rfl⟩
    · right
      right
      left
      rw [hb]
      exact ⟨p, hg, hp, rfl, rfl⟩
  · right
    right
    right
    rw [h]
    exact ⟨he, rfl, rfl⟩

/-- The provider and wallet type after `connectWallet`: unchanged, or, when
no provider was set, `window.ethereum` stored as `metamask`. -/
theorem connectWallet_state_fields (s : State) (env : Env) :
    ((connectWallet s env).state.provider = s.provider ∧
      (connectWallet s env).state.walletType = s.walletType) ∨
    (s.provider.truthy = false ∧ env.ethereum.truthy = true ∧
      (connectWallet s env).state.provider = env.ethereum ∧
      (connectWallet s env).state.walletType = "metamask") := by
  have hacq : ∀ s1, acquireProvider s env = .ok s1 →
      (s1.provider = s.provider ∧ s1.walletType = s.walletType) ∨
      (s.provider.truthy = false ∧ env.ethereum.truthy = true ∧
        s1.provider = env.ethereum ∧ s1.walletType = "metamask") := by
    intro s1 h1
    rcases acquireProvider_provider s s1 env h1 with ⟨_, h⟩ | ⟨hf, he, h⟩
    · left
      rw [h]
      exact ⟨rfl, rfl⟩
    · right
      rw [h]
      exact ⟨hf, he, rfl, rfl⟩
  rcases connectWallet_cases s env with
    ⟨e, _, h⟩ | ⟨s1, e, ha, _, h⟩ | ⟨s1, acc, c, ha, _, _, _, h⟩ |
    ⟨s1, acc, c, ha, _, _, _, hon⟩
  · left
    rw [h]
    exact ⟨rfl, rfl⟩
  · rw [h]
    exact hacq s1 ha
  · rw [h]
    exact hacq s1 ha
  · rcases hon with ⟨e, _, h⟩ | ⟨e, _, _, h⟩ | ⟨_, _, h⟩
    · rw [h]
      exact hacq s1 ha
    · rw [h]
      exact hacq s1 ha
    · rw [h]
      exact hacq s1 ha

/-- The state after the `try` statement is the state its block left: the
catch handler assigns nothing. -/
theorem tryFarcaster_state (s : State) (env : Env) :
    (tryFarcaster s env).state = (farcasterBody s env).state := by
  unfold tryFarcaster
  rcases farcasterBody s env with ⟨r, s1, t⟩
  cases r with
  | error e =>
    simp only
    split <;> rfl
  | ok o => rfl

/-- The four outcomes of `initializeWallet`: the `farcaster` record returned
inside the `try` block; a rejection from the catch handler; the `metamask`
record with `window.ethereum` stored; the `none` record with the state the
`try` statement left. -/
theorem initializeWallet_outcomes (s : State) (env : Env) :
    (∃ a, initializeWallet s env =
      ⟨.ok ⟨.str "farcaster", a, .bool true⟩, (farcasterBody s env).state,
       (farcasterBody s env).trace⟩) ∨
    (initializeWallet s env =
      ⟨.error .typeError, (farcasterBody s env).state, (farcasterBody s env).trace⟩) ∨
    (env.ethereum.truthy = true ∧
      initializeWallet s env =
        ⟨.ok ⟨.str "metamask", .null, .bool false⟩,
         ⟨env.ethereum, (farcasterBody s env).state.userAddress, "metamask"⟩,
         (farcasterBody s env).trace⟩) ∨
    (env.ethereum.truthy = false ∧
      initializeWallet s env =
        ⟨.ok ⟨.str "none", .null, .bool false⟩, (farcasterBody s env).state,
         (farcasterBody s env).trace⟩) := by
  have hfall : ∀ s1 t,
      initializeWallet s env =
        ⟨(checkMetaMask s1 env).result, (checkMetaMask s1 env).state, t⟩ →
      (env.ethereum.truthy = true ∧
        initializeWallet s env =
          ⟨.ok ⟨.str "metamask", .null, .bool false⟩,
           ⟨env.ethereum, s1.userAddress, "metamask"⟩, t⟩) ∨
      (env.ethereum.truthy = false ∧
        initializeWallet s env = ⟨.ok ⟨.str "none", .null, .bool false⟩, s1, t⟩) := by
    intro s1 t h
    rcases checkMetaMask_eq s1 env with ⟨he, hm⟩ | ⟨he, hm⟩
    · left
      exact ⟨he, by rw [h, hm]⟩
    · right
      exact ⟨he, by rw [h, hm]⟩
  rcases farcasterBody_cases s env with
    ⟨e, _, hb⟩ | ⟨e, _, _, hb⟩ | ⟨p, _, _, _, hb⟩ | ⟨p, e, _, _, _, _, hb⟩ |
    ⟨p, acc, c, _, _, _, _, _, _, hb⟩ | ⟨p, acc, a, _, _, _, _, _, _, hb⟩
  · have h := initializeWallet_of_body_error s _ env e _ hb
    rw [hb]
    by_cases hn : e.nullish = true
    · simp [hn] at h
      exact Or.inr (Or.inl h)
    · simp [hn] at h
      exact Or.inr (Or.inr (hfall _ _ h))
  · have h := initializeWallet_of_body_error s _ env e _ hb
    rw [hb]
    by_cases hn : e.nullish = true
    · simp [hn] at h
      exact Or.inr (Or.inl h)
    · simp [hn] at h
      exact Or.inr (Or.inr (hfall _ _ h))
  · rw [hb]
    exact Or.inr (Or.inr (hfall _ _ (initializeWallet_of_body_none s _ env _ hb)))
  · have h := initializeWallet_of_body_error s _ env e _ hb
    rw [hb]
    by_cases hn : e.nullish = true
    · simp [hn] at h
      exact Or.inr (Or.inl h)
    · simp [hn] at h
      exact Or.inr (Or.inr (hfall _ _ h))
  · rw [hb]
    exact Or.inr (Or.inr (hfall _ _ (initializeWallet_of_body_none s _ env _ hb)))
  · rw [hb]
    exact Or.inl ⟨a, initializeWallet_of_body_some s _ env _ _ hb⟩

/-- C6, as stated, fails: in one call of `initializeWallet()` whose host
handle answers the account request with the empty list while an extension is
present, the provider field holds the host handle after the `try` statement
and is then replaced by the extension, a different object. -/
theorem initializeWallet_replaces_host_handle :
    (tryFarcaster State.initial (envHost (.ok (.arr [])) injected)).state.provider
      = hostHandle ∧
    hostHandle.truthy = true ∧
    (initializeWallet State.initial (envHost (.ok (.arr [])) injected)).state.provider
      = injected ∧
    injected ≠ hostHandle := by
  refine ⟨rfl, rfl, rfl, ?_⟩
  simp [injected, hostHandle]

/-- C6, amended.  `connectWallet()` never replaces a set provider; with the
field unset it assigns it `window.ethereum` when that is truthy and leaves
the state unchanged otherwise.  `sendTransaction`, `getFarcasterContext` and
`openUrl` leave the whole state unchanged.  `initializeWallet()` makes up to
two assignments.  First, in the `try` statement: when readiness and the
handle request both succeed the field is assigned the value the host SDK
returned, and when either rejects the state is not touched.  Second, after
it: when the call resolves to a record other than the `farcaster` one and
`window.ethereum` is truthy the field is assigned `window.ethereum`; when
`window.ethereum` is falsy, or the call resolves to the `farcaster` record,
or it rejects, the state is the one the `try` statement left.  In
particular, when the host yields a truthy handle whose account request
yields no address, or rejects with a value other than `null` and
`undefined`, and `window.ethereum` is truthy, the handle stored by the first
assignment is replaced by `window.ethereum`. -/
theorem provider_assignment_policy (s : State) (env : Env) (txParams url : JSVal) :
    (s.provider.truthy = true → (connectWallet s env).state.provider = s.provider) ∧
    (s.provider.truthy = false → env.ethereum.truthy = true →
      (connectWallet s env).state.provider = env.ethereum) ∧
    (s.provider.truthy = false → env.ethereum.truthy = false →
      (connectWallet s env).state = s) ∧
    (sendTransaction s env txParams).state = s ∧
    (getFarcasterContext s env).state = s ∧
    (openUrl s env url).state = s ∧
    (∀ p, env.ready = .ok () → env.getEthereumProvider = .ok p →
      (tryFarcaster s env).state.provider = p) ∧
    ((∃ e, env.ready = .error e) ∨ (∃ e, env.getEthereumProvider = .error e) →
      (tryFarcaster s env).state = s) ∧
    (∀ info, (initializeWallet s env).result = .ok info → info.type ≠ .str "farcaster" →
      env.ethereum.truthy = true →
      (initializeWallet s env).state.provider = env.ethereum) ∧
    (∀ info, (initializeWallet s env).result = .ok info → info.type ≠ .str "farcaster" →
      env.ethereum.truthy = false →
      (initializeWallet s env).state = (tryFarcaster s env).state) ∧
    (∀ info, (initializeWallet s env).result = .ok info → info.type = .str "farcaster" →
      (initializeWallet s env).state = (tryFarcaster s env).state) ∧
    (∀ e, (initializeWallet s env).result = .error e →
      (initializeWallet s env).state = (tryFarcaster s env).state) ∧
    (∀ p accounts c, env.ready = .ok () → env.getEthereumProvider = .ok p →
      p.truthy = true → env.request p requestAccounts = .ok accounts →
      accounts.andIndex0 = .ok c → c.truthy = false → env.ethereum.truthy = true →
      (tryFarcaster s env).state.provider = p ∧
      (initializeWallet s env).state.provider = env.ethereum) ∧
    (∀ p e, env.ready = .ok () → env.getEthereumProvider = .ok p →
      p.truthy = true → env.request p requestAccounts = .error e →
      e.nullish = false → env.ethereum.truthy = true →
      (tryFarcaster s env).state.provider = p ∧
      (initializeWallet s env).state.provider = env.ethereum) := by
  have hfirst : ∀ p, env.ready = .ok () → env.getEthereumProvider = .ok p →
      (tryFarcaster s env).state.provider = p := by
    intro p hr hg
    rw [tryFarcaster_state]
    rcases farcasterBody_cases s env with
      ⟨e, hr1, _⟩ | ⟨e, _, hg1, _⟩ | ⟨q, _, hg1, _, hb⟩ | ⟨q, e, _, hg1, _, _, hb⟩ |
      ⟨q, acc, c, _, hg1, _, _, _, _, hb⟩ | ⟨q, acc, a, _, hg1, _, _, _, _, hb⟩
    · rw [hr] at hr1
      cases hr1
    · rw [hg] at hg1
      cases hg1
    · rw [hg] at hg1
      cases hg1
      rw [hb]
    · rw [hg] at hg1
      cases hg1
      rw [hb]
    · rw [hg] at hg1
      cases hg1
      rw [hb]
    · rw [hg] at hg1
      cases hg1
      rw [hb]
  have hne : JSVal.str "metamask" ≠ JSVal.str "farcaster" := by simp
  have hne2 : JSVal.str "none" ≠ JSVal.str "farcaster" := by simp
  refine ⟨?_, ?_, ?_, ?_, ?_, ?_, hfirst, ?_, ?_, ?_, ?_, ?_, ?_, ?_⟩
  · intro hp
    rcases connectWallet_state_fields s env with ⟨h, _⟩ | ⟨hf, _⟩
    · exact h
    · rw [hp] at hf
      cases hf
  · intro hp he
    have hacq : acquireProvider s env =
        .ok { s with provider := env.ethereum, walletType := "metamask" } := by
      simp [acquireProvider, hp, he]
    rcases connectWallet_cases s env with
      ⟨e, ha, _⟩ | ⟨s1, e, ha, _, h⟩ | ⟨s1, acc, c, ha, _, _, _, h⟩ |
      ⟨s1, acc, c, ha, _, _, _, hon⟩
    · rw [hacq] at ha
      cases ha
    · rw [hacq] at ha
      cases ha
      rw [h]
    · rw [hacq] at ha
      cases ha
      rw [h]
    · rw [hacq] at ha
      cases ha
      rcases hon with ⟨e, _, h⟩ | ⟨e, _, _, h⟩ | ⟨_, _, h⟩ <;> rw [h]
  · intro hp he
    simp [connectWallet, acquireProvider, hp, he]
  · unfold sendTransaction
    split <;> rfl
  · unfold getFarcasterContext
    split
    · split <;> rfl
    · rfl
  · unfold openUrl
    split
    · split <;> rfl
    · rfl
  · intro hrej
    rw [tryFarcaster_state]
    rcases farcasterBody_cases s env with
      ⟨e, _, hb⟩ | ⟨e, _, _, hb⟩ | ⟨q, hr1, hg1, _, _⟩ | ⟨q, e, hr1, hg1, _, _, _⟩ |
      ⟨q, acc, c, hr1, hg1, _, _, _, _, _⟩ | ⟨q, acc, a, hr1, hg1, _, _, _, _, _⟩
    · rw [hb]
    · rw [hb]
    · rcases hrej with ⟨e, he⟩ | ⟨e, he⟩
      · rw [hr1] at he
        cases he
      · rw [hg1] at he
        cases he
    · rcases hrej with ⟨e, he⟩ | ⟨e, he⟩
      · rw [hr1] at he
        cases he
      · rw [hg1] at he
        cases he
    · rcases hrej with ⟨e, he⟩ | ⟨e, he⟩
      · rw [hr1] at he
        cases he
      · rw [hg1] at he
        cases he
    · rcases hrej with ⟨e, he⟩ | ⟨e, he⟩
      · rw [hr1] at he
        cases he
      · rw [hg1] at he
        cases he
  · intro info hres hty he
    rcases initializeWallet_outcomes s env with ⟨a, h⟩ | h | ⟨_, h⟩ | ⟨hf, _⟩
    · rw [h] at hres
      cases hres
      exact absurd rfl hty
    · rw [h] at hres
      cases hres
    · rw [h]
    · rw [he] at hf
      cases hf
  · intro info hres hty he
    rw [tryFarcaster_state]
    rcases initializeWallet_outcomes s env with ⟨a, h⟩ | h | ⟨ht, _⟩ | ⟨_, h⟩
    · rw [h]
    · rw [h]
    · rw [he] at ht
      cases ht
    · rw [h]
  · intro info hres hty
    rw [tryFarcaster_state]
    rcases initializeWallet_outcomes s env with ⟨a, h⟩ | h | ⟨_, h⟩ | ⟨_, h⟩
    · rw [h]
    · rw [h]
    · rw [h] at hres
      cases hres
      exact absurd hty hne
    · rw [h]
  · intro e hres
    rw [tryFarcaster_state]
    rcases initializeWallet_outcomes s env with ⟨a, h⟩ | h | ⟨_, h⟩ | ⟨_, h⟩
    · rw [h]
    · rw [h]
    · rw [h] at hres
      cases hres
    · rw [h]
  · intro p accounts c hr hg hp hq hc hcf he
    refine ⟨hfirst p hr hg, ?_⟩
    have hb : farcasterBody s env =
        ⟨.ok none, ⟨p, s.userAddress, "farcaster"⟩,
         [.sdkReady 1000, .sdkGetEthereumProvider, .request p requestAccounts]⟩ := by
      simp [farcasterBody, hr, hg, hp, hq, hc, hcf]
    rw [initializeWallet_of_body_none s _ env _ hb]
    rcases checkMetaMask_eq ⟨p, s.userAddress, "farcaster"⟩ env with ⟨_, hm⟩ | ⟨hf, _⟩
    · rw [hm]
    · rw [he] at hf
      cases hf
  · intro p e hr hg hp hq hn he
    refine ⟨hfirst p hr hg, ?_⟩
    have hb : farcasterBody s env =
        ⟨.error e, ⟨p, s.userAddress, "farcaster"⟩,
         [.sdkReady 1000, .sdkGetEthereumProvider, .request p requestAccounts]⟩ := by
      simp [farcasterBody, hr, hg, hp, hq]
    rw [initializeWallet_of_body_error s _ env e _ hb]
    simp only [hn]
    rcases checkMetaMask_eq ⟨p, s.userAddress, "farcaster"⟩ env with ⟨_, hm⟩ | ⟨hf, _⟩
    · simp [hm]
    · rw [he] at hf
      cases hf

/-- An instance of the amended C6: the host handle rejects the account
request with an `Error` and an extension is present; the handle stored in
the `try` statement is replaced by the extension. -/
theorem provider_assignment_policy_witness :
    (tryFarcaster State.initial
        (envHost (.error (.error "denied")) injected)).state.provider = hostHandle ∧
    (initializeWallet State.initial
        (envHost (.error (.error "denied")) injected)).state.provider = injected :=
  (provider_assignment_policy State.initial (envHost (.error (.error "denied")) injected)
    .null .null).2.2.2.2.2.2.2.2.2.2.2.2.2 hostHandle (.error "denied")
    rfl rfl rfl rfl rfl rfl

/-! ## The wallet type names the stored provider -/

/-- `initializeWallet` keeps the wallet type in step with the provider. -/
theorem tagged_initializeWallet (host : JSVal → Prop) (s : State) (env : Env)
    (hs : Tagged host s) (henv : env.distinguishes host) :
    Tagged host (initializeWallet s env).state := by
  intro ht
  rcases initializeWallet_state_fields s env with
    ⟨hp, hw⟩ | ⟨p, _, hf, hp, _⟩ | ⟨p, hg, hpt, hp, hw⟩ | ⟨he, hp, hw⟩
  · rw [hp] at ht ⊢
    rw [hw]
    exact hs ht
  · rw [hp, hf] at ht
    cases ht
  · left
    rw [hp]
    exact ⟨henv.1 p hg hpt, hw⟩
  · right
    rw [hp]
    exact ⟨henv.2 he, hw⟩

/-- `connectWallet` keeps the wallet type in step with the provider. -/
theorem tagged_connectWallet (host : JSVal → Prop) (s : State) (env : Env)
    (hs : Tagged host s) (henv : env.distinguishes host) :
    Tagged host (connectWallet s env).state := by
  intro ht
  rcases connectWallet_state_fields s env with ⟨hp, hw⟩ | ⟨_, he, hp, hw⟩
  · rw [hp] at ht ⊢
    rw [hw]
    exact hs ht
  · right
    rw [hp]
    exact ⟨henv.2 he, hw⟩

/-- In every reachable state the wallet type names the origin of the stored
provider. -/
theorem tagged_of_reachable (host : JSVal → Prop) (s : State) (h : Reachable host s) :
    Tagged host s := by
  induction h with
  | initial =>
    intro ht
    cases ht
  | step c s env _ henv ih =>
    cases c with
    | initializeWallet => exact tagged_initializeWallet host s env ih henv
    | connectWallet => exact tagged_connectWallet host s env ih henv
    | sendTransaction tx =>
      have h : (sendTransaction s env tx).state = s := by
        unfold sendTransaction
        split <;> rfl
      simpa [Call.next, h] using ih
    | getFarcasterContext =>
      have h : (getFarcasterContext s env).state = s := by
        unfold getFarcasterContext
        split
        · split <;> rfl
        · rfl
      simpa [Call.next, h] using ih
    | openUrl url =>
      have h : (openUrl s env url).state = s := by
        unfold openUrl
        split
        · split <;> rfl
        · rfl
      simpa [Call.next, h] using ih
    | reload =>
      intro ht
      cases ht

/-- C4: in every state reachable by calls whose environments keep host
handles and the injected provider apart, and for every such environment, if
`connectWallet()` resolves to an address `a` (a value, not the `undefined`
of a call that obtained no address), then `getAddress()` returns `a`
afterwards, exactly one provider `p` was sent a request, `p` answered the
`eth_requestAccounts` request and is the stored provider, and
`getWalletType()` is `farcaster` if `p` is a host handle and `metamask` if
it is not. -/
theorem connectWallet_address_and_type (host : JSVal → Prop) (s : State) (env : Env)
    (a : JSVal) (hs : Reachable host s) (henv : env.distinguishes host)
    (hres : (connectWallet s env).result = .ok a) (ha : a ≠ .undefined) :
    getAddress (connectWallet s env).state = a ∧
    ∃ p, Event.request p requestAccounts ∈ (connectWallet s env).trace ∧
      (∃ accounts, env.request p requestAccounts = .ok accounts) ∧
      (∀ q args, Event.request q args ∈ (connectWallet s env).trace → q = p) ∧
      (connectWallet s env).state.provider = p ∧
      (host p → getWalletType (connectWallet s env).state = "farcaster") ∧
      (¬ host p → getWalletType (connectWallet s env).state = "metamask") := by
  have htag := tagged_connectWallet host s env (tagged_of_reachable host s hs) henv
  rcases connectWallet_cases s env with
    ⟨e, _, h⟩ | ⟨s1, e, _, _, h⟩ | ⟨s1, acc, c, _, _, _, _, h⟩ |
    ⟨s1, acc, c, hacq, hr, _, _, ⟨e, _, h⟩ | ⟨e, _, _, h⟩ | ⟨_, _, h⟩⟩
  · rw [h] at hres
    cases hres
  · rw [h] at hres
    cases hres
  · rw [h] at hres
    simp at hres
    exact absurd hres.symm ha
  · rw [h] at hres
    cases hres
  · rw [h] at hres
    cases hres
  · have hpt : s1.provider.truthy = true := by
      rcases acquireProvider_provider s s1 env hacq with ⟨hp, h1⟩ | ⟨_, he, h1⟩
      · rw [h1]
        exact hp
      · rw [h1]
        exact he
    rw [h] at hres htag ⊢
    simp at hres
    subst hres
    refine ⟨rfl, s1.provider, by simp, ⟨acc, hr⟩, ?_, rfl, ?_, ?_⟩
    · intro q args hq
      simp at hq
      exact hq.1
    · intro hh
      rcases htag hpt with ⟨_, hw⟩ | ⟨hn, _⟩
      · exact hw
      · exact absurd hh hn
    · intro hn
      rcases htag hpt with ⟨hh, _⟩ | ⟨_, hw⟩
      · exact absurd hh hn
      · exact hw

/-- An instance of C4: after an initialization that stored the host handle
without an address, `connectWallet()` is answered by the host handle with
the one-entry list of the address `0xABC`. -/
theorem connectWallet_address_and_type_witness :
    getAddress (connectWallet
        (Call.next .initializeWallet State.initial (envHost (.ok (.arr [])) .undefined))
        (envHost (.ok (.arr [.str "0xABC"])) .undefined)).state = .str "0xABC" ∧
    ∃ p, Event.request p requestAccounts ∈ (connectWallet
        (Call.next .initializeWallet State.initial (envHost (.ok (.arr [])) .undefined))
        (envHost (.ok (.arr [.str "0xABC"])) .undefined)).trace ∧
      (∃ accounts, (envHost (.ok (.arr [.str "0xABC"])) .undefined).request p requestAccounts
        = .ok accounts) ∧
      (∀ q args, Event.request q args ∈ (connectWallet
        (Call.next .initializeWallet State.initial (envHost (.ok (.arr [])) .undefined))
        (envHost (.ok (.arr [.str "0xABC"])) .undefined)).trace → q = p) ∧
      (connectWallet
        (Call.next .initializeWallet State.initial (envHost (.ok (.arr [])) .undefined))
        (envHost (.ok (.arr [.str "0xABC"])) .undefined)).state.provider = p ∧
      (p = hostHandle → getWalletType (connectWallet
        (Call.next .initializeWallet State.initial (envHost (.ok (.arr [])) .undefined))
        (envHost (.ok (.arr [.str "0xABC"])) .undefined)).state = "farcaster") ∧
      (¬ p = hostHandle → getWalletType (connectWallet
        (Call.next .initializeWallet State.initial (envHost (.ok (.arr [])) .undefined))
        (envHost (.ok (.arr [.str "0xABC"])) .undefined)).state = "metamask") :=
  connectWallet_address_and_type (fun v => v = hostHandle)
    (Call.next .initializeWallet State.initial (envHost (.ok (.arr [])) .undefined))
    (envHost (.ok (.arr [.str "0xABC"])) .undefined) (.str "0xABC")
    (Reachable.step .initializeWallet State.initial (envHost (.ok (.arr [])) .undefined)
      Reachable.initial
      ⟨by intro p h _; simpa [envHost] using h.symm, by intro h; cases h⟩)
    ⟨by intro p h _; simpa [envHost] using h.symm, by intro h; cases h⟩
    rfl
    (by simp)

end WalletProvider
